import Mathlib

/-!
Verification of the SigV4 presigned-URL signer of the `paste` repository.

The signer exists twice in the repository:
  * `src/workers/r2-signer/src/worker.js` (Cloudflare Worker), embedded below
    in namespace `Worker`;
  * `src/api/r2-sign.js` (Vercel serverless function), embedded below in
    namespace `Api`.

Both call the platform's SHA-256 / HMAC-SHA-256 primitives (WebCrypto resp.
node `crypto`); those primitives are embedded here as the FIPS 180-4 /
RFC 2104 algorithms on byte lists (`Nat` with explicit `% 2^32` where the
32-bit words wrap).  JavaScript strings are modelled as Lean `String`
(Unicode scalar values); `TextEncoder` / `'utf8'` encodings are the real
UTF-8 byte encoding.
-/

/-- Concatenation of the images of `f`, i.e. `List.flatMap`, defined by
recursion so proofs can unfold it. -/
def joinMap (f : α → List β) : List α → List β
  | [] => []
  | a :: t => f a ++ joinMap f t

/-- `xs.join(sep)` of JavaScript: the elements interleaved with `sep`. -/
def joinSep (sep : String) : List String → String
  | [] => ""
  | [x] => x
  | x :: y :: t => x ++ sep ++ joinSep sep (y :: t)

/-- Last element of a list, with a default (JavaScript `arr.pop()` on the
result of `split`, which is never the empty array). -/
def lastD (d : α) : List α → α
  | [] => d
  | [a] => a
  | _ :: b :: t => lastD d (b :: t)

/-- 32-bit wrap-around. -/
def w32 (n : Nat) : Nat := n % 4294967296

/-- Rotate a 32-bit word right by `n` places. -/
def rotr (n x : Nat) : Nat := w32 ((x >>> n) ||| (x <<< (32 - n)))

def bigSigma0 (x : Nat) : Nat := rotr 2 x ^^^ rotr 13 x ^^^ rotr 22 x

def bigSigma1 (x : Nat) : Nat := rotr 6 x ^^^ rotr 11 x ^^^ rotr 25 x

def smallSigma0 (x : Nat) : Nat := rotr 7 x ^^^ rotr 18 x ^^^ (x >>> 3)

def smallSigma1 (x : Nat) : Nat := rotr 17 x ^^^ rotr 19 x ^^^ (x >>> 10)

def chF (x y z : Nat) : Nat := (x &&& y) ^^^ ((x ^^^ 4294967295) &&& z)

def majF (x y z : Nat) : Nat := (x &&& y) ^^^ (x &&& z) ^^^ (y &&& z)

/-- The 64 round constants of SHA-256 (FIPS 180-4 §4.2.2), written in
decimal. -/
def K64 : List Nat :=
  [1116352408, 1899447441, 3049323471, 3921009573, 961987163,
   1508970993, 2453635748, 2870763221, 3624381080, 310598401,
   607225278, 1426881987, 1925078388, 2162078206, 2614888103,
   3248222580, 3835390401, 4022224774, 264347078, 604807628,
   770255983, 1249150122, 1555081692, 1996064986, 2554220882,
   2821834349, 2952996808, 3210313671, 3336571891, 3584528711,
   113926993, 338241895, 666307205, 773529912, 1294757372,
   1396182291, 1695183700, 1986661051, 2177026350, 2456956037,
   2730485921, 2820302411, 3259730800, 3345764771, 3516065817,
   3600352804, 4094571909, 275423344, 430227734, 506948616,
   659060556, 883997877, 958139571, 1322822218, 1537002063,
   1747873779, 1955562222, 2024104815, 2227730452, 2361852424,
   2428436474, 2756734187, 3204031479, 3329325298]

/-- The initial hash value of SHA-256 (FIPS 180-4 §5.3.3), in decimal. -/
def H0 : List Nat :=
  [1779033703, 3144134277, 1013904242, 2773480762, 1359893119,
   2600822924, 528734635, 1541459225]

/-- Big-endian 8-byte encoding of the bit length used in SHA-256 padding. -/
def be8 (n : Nat) : List Nat :=
  [n / 72057594037927936 % 256, n / 281474976710656 % 256, n / 1099511627776 % 256,
   n / 4294967296 % 256, n / 16777216 % 256, n / 65536 % 256, n / 256 % 256, n % 256]

/-- SHA-256 message padding: `0x80`, zeros to 56 mod 64, 8-byte bit length. -/
def padMessage (msg : List Nat) : List Nat :=
  msg ++ [128] ++ List.replicate ((119 - msg.length % 64) % 64) 0 ++ be8 (msg.length * 8)

/-- Big-endian byte decomposition of a 32-bit word. -/
def wordBE (w : Nat) : List Nat :=
  [w / 16777216 % 256, w / 65536 % 256, w / 256 % 256, w % 256]

/-- The 16 big-endian 32-bit words of one 64-byte block. -/
def wordsOfBlock (block : List Nat) : List Nat :=
  (List.range 16).map fun i =>
    block.getD (4 * i) 0 * 16777216 + block.getD (4 * i + 1) 0 * 65536 +
      block.getD (4 * i + 2) 0 * 256 + block.getD (4 * i + 3) 0

/-- Extend the 16 block words to the 64-entry message schedule. -/
def msgSchedule (ws : List Nat) : List Nat :=
  (List.range 48).foldl
    (fun acc i =>
      acc ++ [w32 (smallSigma1 (acc.getD (i + 14) 0) + acc.getD (i + 9) 0 +
                smallSigma0 (acc.getD (i + 1) 0) + acc.getD i 0)])
    ws

/-- One SHA-256 round on the 8-word working state. -/
def roundStep (k w : Nat) (st : List Nat) : List Nat :=
  match st with
  | [a, b, c, d, e, f, g, h] =>
    let t1 := w32 (h + bigSigma1 e + chF e f g + k + w)
    let t2 := w32 (bigSigma0 a + majF a b c)
    [w32 (t1 + t2), a, b, c, w32 (d + t1), e, f, g]
  | other => other

/-- SHA-256 compression of one 64-byte block into the running state. -/
def compressBlock (st : List Nat) (block : List Nat) : List Nat :=
  let ws := msgSchedule (wordsOfBlock block)
  let final := (List.zip K64 ws).foldl (fun s kw => roundStep kw.1 kw.2 s) st
  (List.zip st final).map fun p => w32 (p.1 + p.2)

/-- Split a byte list into 64-byte blocks. -/
def toBlocks : List Nat → List (List Nat)
  | [] => []
  | b :: t => ((b :: t).take 64) :: toBlocks ((b :: t).drop 64)
termination_by l => l.length
decreasing_by simp [List.length_drop]; omega

/-- SHA-256 of a byte list (FIPS 180-4). -/
def sha256 (msg : List Nat) : List Nat :=
  joinMap wordBE ((toBlocks (padMessage msg)).foldl compressBlock H0)

/-- HMAC-SHA-256 over byte lists (RFC 2104), the primitive behind both
`crypto.subtle.sign('HMAC', …)` and node's `createHmac('sha256', …)`. -/
def hmacSha256 (key msg : List Nat) : List Nat :=
  let k0 := if key.length > 64 then sha256 key else key
  let kPad := k0 ++ List.replicate (64 - k0.length) 0
  sha256 (kPad.map (fun b => b ^^^ 92) ++ sha256 (kPad.map (fun b => b ^^^ 54) ++ msg))

/-- UTF-8 bytes of one Unicode scalar value (what `TextEncoder` emits). -/
def utf8Bytes (c : Char) : List Nat :=
  if c.toNat < 128 then [c.toNat]
  else if c.toNat < 2048 then [192 + c.toNat / 64, 128 + c.toNat % 64]
  else if c.toNat < 65536 then
    [224 + c.toNat / 4096, 128 + c.toNat / 64 % 64, 128 + c.toNat % 64]
  else
    [240 + c.toNat / 262144, 128 + c.toNat / 4096 % 64, 128 + c.toNat / 64 % 64,
     128 + c.toNat % 64]

/-- UTF-8 encoding of a string. -/
def utf8 (s : String) : List Nat := joinMap utf8Bytes s.data

/-- Lowercase hexadecimal digit. -/
def hexLowerDigit (n : Nat) : Char :=
  ("0123456789abcdef").data.getD n '0'

/-- Uppercase hexadecimal digit. -/
def hexUpperDigit (n : Nat) : Char :=
  ("0123456789ABCDEF").data.getD n '0'

/-- The two lowercase hex digits of one byte: `b.toString(16).padStart(2,'0')`
of the source's `toHex`. -/
def hexByteLower (b : Nat) : List Char := [hexLowerDigit (b / 16), hexLowerDigit (b % 16)]

/-- Lowercase hex of a byte list (`toHex` in both source files). -/
def toHex (bs : List Nat) : String := String.mk (joinMap hexByteLower bs)

/-- The characters `encodeURIComponent` leaves unencoded:
`A–Z a–z 0–9 - _ . ! ~ * ' ( )` (ECMA-262 uriUnescaped). -/
def jsUnreserved (c : Char) : Bool :=
  c.isAlpha || c.isDigit ||
    c ∈ ['-', '_', '.', '!', '~', '*', '\'', '(', ')']

/-- `'%'` followed by the two uppercase hex digits of a byte, as produced both
by `encodeURIComponent` and by the source's
`'%' + c.charCodeAt(0).toString(16).toUpperCase()` (all bytes involved are
≥ 16, so `toString(16)` has exactly two digits). -/
def pctByte (b : Nat) : List Char := ['%', hexUpperDigit (b / 16), hexUpperDigit (b % 16)]

/-- One character's image under `encodeURIComponent`: kept if unreserved,
otherwise each UTF-8 byte percent-encoded. -/
def encChar (c : Char) : List Char :=
  if jsUnreserved c then [c] else joinMap pctByte (utf8Bytes c)

/-- Membership in the character class `[!'()*]` of the source's `replace`. -/
def forcedChar (c : Char) : Bool := c ∈ ['!', '\'', '(', ')', '*']

/-- One character's image under `.replace(/[!'()*]/g, c => '%' +
c.charCodeAt(0).toString(16).toUpperCase())`. -/
def forceEsc (c : Char) : List Char := if forcedChar c then pctByte c.toNat else [c]

/-- `encodeQueryRfc3986` of both source files:
`encodeURIComponent(input).replace(/[!'()*]/g, …)` on the character level. -/
def encodeQueryRfc3986 (s : String) : String :=
  String.mk (joinMap forceEsc (joinMap encChar s.data))

/-- Global, left-to-right, non-overlapping replacement of `"%2F"` by `"/"`:
the `.replace(/%2F/g, '/')` of both source files. -/
def replace2F : List Char → List Char
  | [] => []
  | [c] => [c]
  | [c, d] => [c, d]
  | c :: d :: e :: t =>
    if c = '%' ∧ d = '2' ∧ e = 'F' then '/' :: replace2F t
    else c :: replace2F (d :: e :: t)

/-- `encodePathPreserveSlash` of both source files:
`encodeQueryRfc3986(input).replace(/%2F/g, '/')`. -/
def encodePathPreserveSlash (s : String) : String :=
  String.mk (replace2F (joinMap forceEsc (joinMap encChar s.data)))

/-- Strict lexicographic order on character lists by code point; on the ASCII
strings compared here this is exactly the UTF-16 code-unit order used by
JavaScript's default `Array.prototype.sort` comparator. -/
def lexLtCh : List Char → List Char → Bool
  | [], [] => false
  | [], _ :: _ => true
  | _ :: _, [] => false
  | a :: as, b :: bs =>
    if a.toNat < b.toNat then true
    else if b.toNat < a.toNat then false
    else lexLtCh as bs

/-- JavaScript string `<` (default sort comparator). -/
def jsLtS (a b : String) : Bool := lexLtCh a.data b.data

/-- `a` sorts no later than `b`. -/
def jsLeS (a b : String) : Bool := !jsLtS b a

/-- Insert into a sorted list of strings. -/
def insSorted (x : String) : List String → List String
  | [] => [x]
  | y :: ys => if jsLeS x y then x :: y :: ys else y :: insSorted x ys

/-- Ascending sort of strings, modelling `Array.prototype.sort()` with the
default comparator (the keys sorted here are pairwise distinct, so stability
is irrelevant). -/
def sortStrings : List String → List String
  | [] => []
  | x :: xs => insSorted x (sortStrings xs)

/-- `qp[k]` on the query-parameter object: first value bound to `k`
(keys are distinct in the source's object literal). -/
def lookupD (ps : List (String × String)) (k : String) : String :=
  match ps with
  | [] => ""
  | p :: t => if p.1 = k then p.2 else lookupD t k

/-- `Option.lookup`-style access used to state presence of a parameter. -/
def lookupOpt (ps : List (String × String)) (k : String) : Option String :=
  match ps with
  | [] => none
  | p :: t => if p.1 = k then some p.2 else lookupOpt t k

/-- JavaScript `String(key).split(sep)` for a single-character separator. -/
def jsSplitCh (sep : Char) : List Char → List (List Char)
  | [] => [[]]
  | c :: cs =>
    match jsSplitCh sep cs with
    | [] => [[]]
    | h :: t => if c = sep then [] :: h :: t else (c :: h) :: t

/-- `String(key).split('/')` on strings. -/
def jsSplitSlash (s : String) : List String :=
  (jsSplitCh '/' s.data).map String.mk

/-- A UTC instant as broken down by the JavaScript `Date` getters
(`getUTCFullYear`, `getUTCMonth`+1, `getUTCDate`, `getUTCHours`,
`getUTCMinutes`, `getUTCSeconds`, `getUTCMilliseconds`). -/
structure DateTime where
  year : Nat
  month : Nat
  day : Nat
  hour : Nat
  minute : Nat
  second : Nat
  ms : Nat
deriving DecidableEq, Repr

/-- `String(n).padStart(2, '0')`. -/
def pad2 (n : Nat) : String :=
  let s := toString n
  if s.length < 2 then "0" ++ s else s

/-- `String(n).padStart(3, '0')` (used only by `toISOString`). -/
def pad3 (n : Nat) : String :=
  let s := toString n
  if s.length < 3 then String.mk (List.replicate (3 - s.length) '0') ++ s else s

/-- `toAmzDate` of both source files: `YYYYMMDDTHHMMSSZ` from the UTC
getters, two-digit-padding every field except the year. -/
def toAmzDate (d : DateTime) : String :=
  toString d.year ++ pad2 d.month ++ pad2 d.day ++ "T" ++ pad2 d.hour ++
    pad2 d.minute ++ pad2 d.second ++ "Z"

/-- `Date.prototype.toISOString` (for years 1000–9999), reported by the
Worker's `/health` endpoint. -/
def toISOString (d : DateTime) : String :=
  toString d.year ++ "-" ++ pad2 d.month ++ "-" ++ pad2 d.day ++ "T" ++ pad2 d.hour ++
    ":" ++ pad2 d.minute ++ ":" ++ pad2 d.second ++ "." ++ pad3 d.ms ++ "Z"

/-- A JavaScript number holding an exact decimal value `m / 10^e` — every
JSON number literal is of this form, and these are the values `expires` can
take on the paths the claims are about. -/
structure JsNum where
  m : Int
  e : Nat
deriving DecidableEq, Repr

/-- Strip trailing zero decimal places (`m / 10^e` with `m` not divisible by
10 unless `e = 0`). -/
def normTZ : Int → Nat → Int × Nat
  | m, 0 => (m, 0)
  | m, e + 1 => if m % 10 = 0 then normTZ (m / 10) e else (m, e + 1)

/-- `String(n)` for such a number: plain decimal notation, as JavaScript
prints doubles of moderate magnitude (no exponent notation). -/
def jsNumToString (n : JsNum) : String :=
  let p := normTZ n.m n.e
  if p.2 = 0 then toString p.1
  else
    let a := p.1.natAbs
    let sign := if p.1 < 0 then "-" else ""
    let r := toString (a % 10 ^ p.2)
    sign ++ toString (a / 10 ^ p.2) ++ "." ++
      String.mk (List.replicate (p.2 - r.length) '0') ++ r

/-- JSON values that can appear in the request body's `expires` field. -/
inductive JsonValue where
  | num (q : JsNum)
  | str (s : String)
  | bool (b : Bool)
  | null
deriving DecidableEq, Repr

/-- Digits value of a digit list. -/
def digitsVal : List Char → Nat
  | [] => 0
  | c :: t => digitsVal t * 0 + 0 + (c.toNat - 48) * 10 ^ t.length + digitsVal t

/-- `Number(string)` on a trimmed decimal numeric literal
`[+-]? digits [. digits]? [(e|E) [+-]? digits]?`; `none` models `NaN`.
(The JavaScript builtin also accepts `0x`/`0o`/`0b`/`Infinity` forms, which
no claim exercises; this model covers the decimal forms.) -/
def parseDecCore (cs : List Char) : Option JsNum :=
  let (neg, cs1) :=
    match cs with
    | '-' :: t => (true, t)
    | '+' :: t => (false, t)
    | other => (false, other)
  let intPart := cs1.takeWhile Char.isDigit
  let rest1 := cs1.dropWhile Char.isDigit
  let (fracPart, rest2) :=
    match rest1 with
    | '.' :: t => (t.takeWhile Char.isDigit, t.dropWhile Char.isDigit)
    | other => ([], other)
  if intPart.isEmpty && fracPart.isEmpty then none
  else
    let m0 : Int := Int.ofNat (digitsVal (intPart ++ fracPart))
    let m1 : Int := if neg then -m0 else m0
    let e0 : Nat := fracPart.length
    match rest2 with
    | [] => some ⟨m1, e0⟩
    | x :: t =>
      if x = 'e' ∨ x = 'E' then
        let (eneg, t1) :=
          match t with
          | '-' :: u => (true, u)
          | '+' :: u => (false, u)
          | other => (false, other)
        let expDigits := t1.takeWhile Char.isDigit
        if expDigits.isEmpty || !(t1.dropWhile Char.isDigit).isEmpty then none
        else
          let k := digitsVal expDigits
          if eneg then some ⟨m1, e0 + k⟩
          else if k ≥ e0 then some ⟨m1 * (10 : Int) ^ (k - e0), 0⟩
          else some ⟨m1, e0 - k⟩
      else none

/-- JavaScript whitespace trimming of `Number(string)`. -/
def trimWs (cs : List Char) : List Char :=
  ((cs.dropWhile Char.isWhitespace).reverse.dropWhile Char.isWhitespace).reverse

/-- `Number(string)`: empty/whitespace is `0`, otherwise the decimal literal
value, otherwise `NaN` (`none`). -/
def jsParseNumber (s : String) : Option JsNum :=
  let cs := trimWs s.data
  if cs.isEmpty then some ⟨0, 0⟩ else parseDecCore cs

/-- `Number(v)` on the JSON values an `expires` field can hold. -/
def jsNumber : JsonValue → Option JsNum
  | .num q => some q
  | .str s => jsParseNumber s
  | .bool b => some ⟨if b then 1 else 0, 0⟩
  | .null => some ⟨0, 0⟩

/-- The boundary's `expires: Number(expires) || 300`, applied to the field of
the parsed body after the destructuring default `expires = 300` (absent field
→ `300`); `||` replaces `NaN` and `0` by `300`. -/
def coerceExpires (v : Option JsonValue) : JsNum :=
  match jsNumber (v.getD (.num ⟨300, 0⟩)) with
  | none => ⟨300, 0⟩
  | some q => if q.m = 0 then ⟨300, 0⟩ else q

/-- The inputs `presignUrl` receives in both source files (the clock instant
is passed separately: the source reads `new Date()` exactly once per call). -/
structure SignArgs where
  method : String
  accountId : String
  bucket : String
  key : String
  region : String
  accessKeyId : String
  secretKey : String
  expires : JsNum
deriving DecidableEq, Repr

namespace Worker

/-- `hmac(key, msg)` of the Worker: HMAC-SHA-256 with a string key. -/
def hmacStr (key msg : String) : List Nat := hmacSha256 (utf8 key) (utf8 msg)

/-- `hmacBuf(keyBuf, msg)` of the Worker: HMAC-SHA-256 keyed by raw bytes. -/
def hmacBuf (keyBuf : List Nat) (msg : String) : List Nat := hmacSha256 keyBuf (utf8 msg)

/-- `sha256Hex` of the Worker. -/
def sha256Hex (message : String) : String := toHex (sha256 (utf8 message))

/-- `hmacHexBuf` of the Worker. -/
def hmacHexBuf (keyBuf : List Nat) (msg : String) : String := toHex (hmacBuf keyBuf msg)

/-- `getSignatureKey` of the Worker: the 4-step SigV4 HMAC chain, each step
keyed by the previous step's raw output bytes. -/
def getSignatureKey (key dateStamp regionName serviceName : String) : List Nat :=
  let kDate := hmacStr ("AWS4" ++ key) dateStamp
  let kRegion := hmacBuf kDate regionName
  let kService := hmacBuf kRegion serviceName
  hmacBuf kService "aws4_request"

/-- `host` in `presignUrl`. -/
def host (a : SignArgs) : String := a.accountId ++ ".r2.cloudflarestorage.com"

/-- `canonicalUri` in `presignUrl`. -/
def canonicalUri (a : SignArgs) : String :=
  "/" ++ a.bucket ++ "/" ++ encodePathPreserveSlash a.key

/-- `datestamp = amzDate.slice(0, 8)`. -/
def datestamp (now : DateTime) : String := (toAmzDate now).take 8

/-- `credentialScope` in `presignUrl`. -/
def credentialScope (a : SignArgs) (now : DateTime) : String :=
  datestamp now ++ "/" ++ a.region ++ "/" ++ "s3" ++ "/" ++ "aws4_request"

/-- `String(key).split('/').pop() || 'download'`. -/
def baseNameOf (key : String) : String :=
  let seg := lastD "" (jsSplitSlash key)
  if seg = "" then "download" else seg

/-- The query-parameter object `qp`, in insertion order (the
`response-content-disposition` entry is added only for GET). -/
def qp (a : SignArgs) (now : DateTime) : List (String × String) :=
  [("X-Amz-Algorithm", "AWS4-HMAC-SHA256"),
   ("X-Amz-Credential", a.accessKeyId ++ "/" ++ credentialScope a now),
   ("X-Amz-Date", toAmzDate now),
   ("X-Amz-Expires", jsNumToString a.expires),
   ("X-Amz-SignedHeaders", "host")] ++
  (if a.method = "GET" then
    [("response-content-disposition",
      "attachment; filename=\"" ++ baseNameOf a.key ++ "\"")]
   else [])

/-- `Object.keys(qp).sort().map(k => enc(k) + '=' + enc(qp[k])).join('&')`. -/
def canonicalQueryString (a : SignArgs) (now : DateTime) : String :=
  joinSep "&"
    ((sortStrings ((qp a now).map Prod.fst)).map fun k =>
      encodeQueryRfc3986 k ++ "=" ++ encodeQueryRfc3986 (lookupD (qp a now) k))

/-- The newline-joined canonical request. -/
def canonicalRequest (a : SignArgs) (now : DateTime) : String :=
  joinSep "\n"
    [a.method, canonicalUri a, canonicalQueryString a now,
     "host:" ++ host a ++ "\n", "host", "UNSIGNED-PAYLOAD"]

/-- The newline-joined string-to-sign. -/
def stringToSign (a : SignArgs) (now : DateTime) : String :=
  joinSep "\n"
    ["AWS4-HMAC-SHA256", toAmzDate now, credentialScope a now,
     sha256Hex (canonicalRequest a now)]

/-- The final signature: `hmacHexBuf(signingKey, stringToSign)`. -/
def signature (a : SignArgs) (now : DateTime) : String :=
  hmacHexBuf (getSignatureKey a.secretKey (datestamp now) a.region "s3")
    (stringToSign a now)

/-- `presignUrl` of the Worker. -/
def presignUrl (a : SignArgs) (now : DateTime) : String :=
  "https://" ++ host a ++ canonicalUri a ++ "?" ++ canonicalQueryString a now ++
    "&X-Amz-Signature=" ++ signature a now

end Worker

namespace Api

/-- `hmac(key, msg)` of the Vercel function (`createHmac` with string key). -/
def hmacStr (key msg : String) : List Nat := hmacSha256 (utf8 key) (utf8 msg)

/-- `createHmac('sha256', buf).update(msg, 'utf8').digest()`. -/
def hmacBuf (keyBuf : List Nat) (msg : String) : List Nat := hmacSha256 keyBuf (utf8 msg)

/-- `sha256Hex` of the Vercel function. -/
def sha256Hex (message : String) : String := toHex (sha256 (utf8 message))

/-- `hmacHex(keyBuf, msg)` of the Vercel function. -/
def hmacHex (keyBuf : List Nat) (msg : String) : String := toHex (hmacBuf keyBuf msg)

/-- `getSignatureKey` of the Vercel function. -/
def getSignatureKey (key dateStamp regionName serviceName : String) : List Nat :=
  let kDate := hmacStr ("AWS4" ++ key) dateStamp
  let kRegion := hmacBuf kDate regionName
  let kService := hmacBuf kRegion serviceName
  hmacBuf kService "aws4_request"

/-- `host` in the Vercel `presignUrl`. -/
def host (a : SignArgs) : String := a.accountId ++ ".r2.cloudflarestorage.com"

/-- `canonicalUri` in the Vercel `presignUrl`. -/
def canonicalUri (a : SignArgs) : String :=
  "/" ++ a.bucket ++ "/" ++ encodePathPreserveSlash a.key

/-- `datestamp = amzDate.slice(0, 8)`. -/
def datestamp (now : DateTime) : String := (toAmzDate now).take 8

/-- `credentialScope` in the Vercel `presignUrl`. -/
def credentialScope (a : SignArgs) (now : DateTime) : String :=
  datestamp now ++ "/" ++ a.region ++ "/" ++ "s3" ++ "/" ++ "aws4_request"

/-- `String(key).split('/').pop() || 'download'`. -/
def baseNameOf (key : String) : String :=
  let seg := lastD "" (jsSplitSlash key)
  if seg = "" then "download" else seg

/-- The query-parameter object `qp` of the Vercel function. -/
def qp (a : SignArgs) (now : DateTime) : List (String × String) :=
  [("X-Amz-Algorithm", "AWS4-HMAC-SHA256"),
   ("X-Amz-Credential", a.accessKeyId ++ "/" ++ credentialScope a now),
   ("X-Amz-Date", toAmzDate now),
   ("X-Amz-Expires", jsNumToString a.expires),
   ("X-Amz-SignedHeaders", "host")] ++
  (if a.method = "GET" then
    [("response-content-disposition",
      "attachment; filename=\"" ++ baseNameOf a.key ++ "\"")]
   else [])

/-- The canonical query string of the Vercel function. -/
def canonicalQueryString (a : SignArgs) (now : DateTime) : String :=
  joinSep "&"
    ((sortStrings ((qp a now).map Prod.fst)).map fun k =>
      encodeQueryRfc3986 k ++ "=" ++ encodeQueryRfc3986 (lookupD (qp a now) k))

/-- The canonical request of the Vercel function. -/
def canonicalRequest (a : SignArgs) (now : DateTime) : String :=
  joinSep "\n"
    [a.method, canonicalUri a, canonicalQueryString a now,
     "host:" ++ host a ++ "\n", "host", "UNSIGNED-PAYLOAD"]

/-- The string-to-sign of the Vercel function. -/
def stringToSign (a : SignArgs) (now : DateTime) : String :=
  joinSep "\n"
    ["AWS4-HMAC-SHA256", toAmzDate now, credentialScope a now,
     sha256Hex (canonicalRequest a now)]

/-- The final signature of the Vercel function. -/
def signature (a : SignArgs) (now : DateTime) : String :=
  hmacHex (getSignatureKey a.secretKey (datestamp now) a.region "s3")
    (stringToSign a now)

/-- `presignUrl` of the Vercel function. -/
def presignUrl (a : SignArgs) (now : DateTime) : String :=
  "https://" ++ host a ++ canonicalUri a ++ "?" ++ canonicalQueryString a now ++
    "&X-Amz-Signature=" ++ signature a now

end Api

/-- The configuration read from the environment; `none` models an unset
variable (JavaScript `undefined`). -/
structure Env where
  accountId : Option String
  bucket : Option String
  accessKeyId : Option String
  secretKey : Option String
  region : Option String
deriving DecidableEq, Repr

/-- JavaScript truthiness test `!v` for an environment value or body field:
`undefined` and the empty string are falsy, every other string truthy. -/
def falsyOpt (o : Option String) : Bool := o.getD "" == ""

/-- The parsed JSON body of a `POST /sign` request, restricted to the fields
the handlers destructure (`key`, `method`, `expires`); `none` models an
absent field. -/
structure Body where
  key : Option String
  method : Option String
  expires : Option JsonValue
deriving DecidableEq, Repr

/-- A boundary response body: an error message or a presigned URL. -/
inductive RespBody where
  | error (msg : String)
  | url (u : String)
deriving DecidableEq, Repr

/-- The `missing` list accumulated by both handlers, in source order. -/
def missingOf (env : Env) : List String :=
  (if falsyOpt env.accountId then ["R2_ACCOUNT_ID"] else []) ++
  (if falsyOpt env.bucket then ["R2_BUCKET_NAME"] else []) ++
  (if falsyOpt env.accessKeyId then ["R2_ACCESS_KEY_ID"] else []) ++
  (if falsyOpt env.secretKey then ["R2_SECRET_ACCESS_KEY"] else [])

/-- The argument object both handlers pass to `presignUrl` (reached only
after validation and configuration checks, so the `getD ""` defaults are
never the values actually used). -/
def mkArgs (env : Env) (body : Body) : SignArgs :=
  { method := body.method.getD "PUT"
    accountId := env.accountId.getD ""
    bucket := env.bucket.getD ""
    key := body.key.getD ""
    region := if falsyOpt env.region then "auto" else env.region.getD ""
    accessKeyId := env.accessKeyId.getD ""
    secretKey := env.secretKey.getD ""
    expires := coerceExpires body.expires }

/-- The Worker's `POST /sign` branch: validation, configuration check, then
`presignUrl`; result is `(HTTP status, response body)`. -/
def Worker.signHandler (env : Env) (body : Body) (now : DateTime) : Nat × RespBody :=
  if falsyOpt body.key || !(["GET", "PUT", "DELETE"].contains (body.method.getD "PUT")) then
    (400, .error "Invalid request")
  else if (missingOf env).isEmpty then
    (200, .url (Worker.presignUrl (mkArgs env body) now))
  else
    (500, .error ("Missing R2 configuration: " ++ joinSep ", " (missingOf env)))

/-- The Vercel function's `POST` path after body parsing: identical
validation, configuration check and signing. -/
def Api.signHandler (env : Env) (body : Body) (now : DateTime) : Nat × RespBody :=
  if falsyOpt body.key || !(["GET", "PUT", "DELETE"].contains (body.method.getD "PUT")) then
    (400, .error "Invalid request")
  else if (missingOf env).isEmpty then
    (200, .url (Api.presignUrl (mkArgs env body) now))
  else
    (500, .error ("Missing R2 configuration: " ++ joinSep ", " (missingOf env)))

/-- The JSON object returned by the Worker's `GET /health` endpoint. -/
structure HealthBody where
  ok : Bool
  nowIso : String
  amzDate : String
  accountId : Option String
  bucket : Option String
  region : String
deriving DecidableEq, Repr

/-- The Worker's `/health` response body: a masked account id
(`slice(0, 6)` plus an ellipsis) when configured, `null` otherwise; bucket
name or `null`; region with the `'auto'` default.  No field reads
`R2_SECRET_ACCESS_KEY` or `R2_ACCESS_KEY_ID`. -/
def Worker.healthBody (env : Env) (now : DateTime) : HealthBody :=
  { ok := true
    nowIso := toISOString now
    amzDate := toAmzDate now
    accountId :=
      if falsyOpt env.accountId then none
      else some ((env.accountId.getD "").take 6 ++ "…")
    bucket := if falsyOpt env.bucket then none else some (env.bucket.getD "")
    region := if falsyOpt env.region then "auto" else env.region.getD "" }

/-- A thrown JavaScript value as the catch clauses see it: it may or may not
carry a string `message` (`err?.message` is `undefined` for a `null` or
message-less throwable). -/
structure JsErr where
  message : Option String
deriving DecidableEq, Repr

/-- `err?.message || 'Failed to sign'`. -/
def errShortMessage (e : JsErr) : String :=
  match e.message with
  | some m => if m == "" then "Failed to sign" else m
  | none => "Failed to sign"

/-- The Worker's catch clause: `json({ error: err?.message || 'Failed to
sign' }, 500, request)` (the exception itself goes to `console.error` only). -/
def Worker.catchClause (e : JsErr) : Nat × RespBody := (500, .error (errShortMessage e))

/-- The Vercel function's catch clause: `res.status(500).json({ error:
err?.message || 'Failed to sign' })`. -/
def Api.catchClause (e : JsErr) : Nat × RespBody := (500, .error (errShortMessage e))

set_option maxRecDepth 8192

theorem joinMap_append (f : α → List β) (l1 l2 : List α) :
    joinMap f (l1 ++ l2) = joinMap f l1 ++ joinMap f l2 := by
  induction l1 with
  | nil => rfl
  | cons a t ih => simp [joinMap, ih]

/-- The image of a single character under the composite query encoder
(`encodeURIComponent` followed by the forced `[!'()*]` escapes). -/
def qEnc (c : Char) : List Char := joinMap forceEsc (encChar c)

theorem encodeQuery_chars_list (cs : List Char) :
    joinMap forceEsc (joinMap encChar cs) = joinMap qEnc cs := by
  induction cs with
  | nil => rfl
  | cons c t ih => simp only [joinMap, joinMap_append, ih, qEnc]

/-- The image of a single character under the path encoder: a literal `/`
survives, everything else is query-encoded. -/
def pathEnc (c : Char) : List Char := if c = '/' then ['/'] else qEnc c

theorem replace2F_cons_ne (c : Char) (l : List Char) (h : c ≠ '%') :
    replace2F (c :: l) = c :: replace2F l := by
  match l with
  | [] => rfl
  | [d] => rfl
  | d :: e :: t => simp [replace2F, h]

theorem replace2F_pctGroup (h1 h2 : Char) (l : List Char)
    (hp1 : h1 ≠ '%') (hp2 : h2 ≠ '%') (hno : ¬(h1 = '2' ∧ h2 = 'F')) :
    replace2F ('%' :: h1 :: h2 :: l) = '%' :: h1 :: h2 :: replace2F l := by
  have step : replace2F ('%' :: h1 :: h2 :: l) = '%' :: replace2F (h1 :: h2 :: l) := by
    simp [replace2F, hno]
  rw [step, replace2F_cons_ne h1 _ hp1, replace2F_cons_ne h2 _ hp2]

theorem hexUpperDigit_ne_pct : ∀ b : Nat, b < 256 →
    hexUpperDigit (b / 16) ≠ '%' ∧ hexUpperDigit (b % 16) ≠ '%' := by decide

theorem hexUpperDigit_no2F : ∀ b : Nat, b < 256 → b ≠ 47 →
    ¬(hexUpperDigit (b / 16) = '2' ∧ hexUpperDigit (b % 16) = 'F') := by decide

theorem replace2F_pct (b : Nat) (l : List Char) (hb : b < 256) (h47 : b ≠ 47) :
    replace2F (pctByte b ++ l) = pctByte b ++ replace2F l := by
  have hne := hexUpperDigit_ne_pct b hb
  exact replace2F_pctGroup _ _ l hne.1 hne.2 (hexUpperDigit_no2F b hb h47)

theorem replace2F_pcts (bs : List Nat) (l : List Char)
    (h : ∀ b ∈ bs, b < 256 ∧ b ≠ 47) :
    replace2F (joinMap pctByte bs ++ l) = joinMap pctByte bs ++ replace2F l := by
  induction bs with
  | nil => simp [joinMap]
  | cons b t ih =>
    have hb := h b (List.mem_cons_self b t)
    simp only [joinMap, List.append_assoc]
    rw [replace2F_pct b _ hb.1 hb.2, ih (fun x hx => h x (List.mem_cons_of_mem b hx))]

theorem char_toNat_lt (c : Char) : c.toNat < 1114112 := by
  rcases c.valid with h | ⟨h1, h2⟩
  · exact lt_trans h (by norm_num)
  · exact h2

theorem char_eq_slash_of_toNat (c : Char) (h : c.toNat = 47) : c = '/' := by
  have h2 := Char.ofNat_toNat c
  rw [h] at h2
  exact h2.symm

theorem utf8Bytes_bound (c : Char) : ∀ b ∈ utf8Bytes c, b < 256 ∧ (b = 47 → c = '/') := by
  intro b hb
  have hlt := char_toNat_lt c
  unfold utf8Bytes at hb
  split_ifs at hb with h1 h2 h3
  · simp only [List.mem_singleton] at hb
    subst hb
    exact ⟨by omega, char_eq_slash_of_toNat c⟩
  · have hd : c.toNat / 64 < 32 := Nat.div_lt_of_lt_mul (by omega)
    have hm : c.toNat % 64 < 64 := Nat.mod_lt _ (by norm_num)
    simp only [List.mem_cons, List.mem_singleton, List.not_mem_nil, or_false] at hb
    rcases hb with hb | hb <;> subst hb <;> exact ⟨by omega, by omega⟩
  · have hd : c.toNat / 4096 < 16 := Nat.div_lt_of_lt_mul (by omega)
    have hm1 : c.toNat / 64 % 64 < 64 := Nat.mod_lt _ (by norm_num)
    have hm : c.toNat % 64 < 64 := Nat.mod_lt _ (by norm_num)
    simp only [List.mem_cons, List.mem_singleton, List.not_mem_nil, or_false] at hb
    rcases hb with hb | hb | hb <;> subst hb <;> exact ⟨by omega, by omega⟩
  · have hd : c.toNat / 262144 < 5 := Nat.div_lt_of_lt_mul (by omega)
    have hm2 : c.toNat / 4096 % 64 < 64 := Nat.mod_lt _ (by norm_num)
    have hm1 : c.toNat / 64 % 64 < 64 := Nat.mod_lt _ (by norm_num)
    have hm : c.toNat % 64 < 64 := Nat.mod_lt _ (by norm_num)
    simp only [List.mem_cons, List.mem_singleton, List.not_mem_nil, or_false] at hb
    rcases hb with hb | hb | hb | hb <;> subst hb <;> exact ⟨by omega, by omega⟩

theorem forceEsc_hexDigit : ∀ k : Nat, k < 16 → forceEsc (hexUpperDigit k) = [hexUpperDigit k] := by
  decide

theorem forceEsc_pct (b : Nat) (hb : b < 256) :
    joinMap forceEsc (pctByte b) = pctByte b := by
  have h1 : forceEsc '%' = ['%'] := by decide
  have h2 := forceEsc_hexDigit (b / 16) (Nat.div_lt_of_lt_mul (by omega))
  have h3 := forceEsc_hexDigit (b % 16) (Nat.mod_lt _ (by norm_num))
  simp [pctByte, joinMap, h1, h2, h3]

theorem joinMap_forceEsc_pcts (bs : List Nat) (h : ∀ b ∈ bs, b < 256) :
    joinMap forceEsc (joinMap pctByte bs) = joinMap pctByte bs := by
  induction bs with
  | nil => rfl
  | cons b t ih =>
    show joinMap forceEsc (pctByte b ++ joinMap pctByte t) = pctByte b ++ joinMap pctByte t
    rw [joinMap_append, forceEsc_pct b (h b (List.mem_cons_self b t)),
      ih (fun x hx => h x (List.mem_cons_of_mem b hx))]

theorem qEnc_eq (c : Char) :
    qEnc c = if jsUnreserved c then forceEsc c else joinMap pctByte (utf8Bytes c) := by
  unfold qEnc encChar
  split_ifs with h
  · simp [joinMap]
  · exact joinMap_forceEsc_pcts _ (fun b hb => (utf8Bytes_bound c b hb).1)

theorem replace2F_qEnc (c : Char) (l : List Char) :
    replace2F (qEnc c ++ l) = pathEnc c ++ replace2F l := by
  by_cases hc : c = '/'
  · subst hc
    have hq : qEnc '/' = ['%', '2', 'F'] := by decide
    rw [hq]
    show replace2F ('%' :: '2' :: 'F' :: l) = pathEnc '/' ++ replace2F l
    simp [replace2F, pathEnc]
  · have hpath : pathEnc c = qEnc c := by simp [pathEnc, hc]
    rw [hpath, qEnc_eq]
    split_ifs with hu
    · by_cases hf : forcedChar c = true
      · have hfe : forceEsc c = pctByte c.toNat := by simp [forceEsc, hf]
        have hmem : c ∈ ['!', '\'', '(', ')', '*'] := by
          have := of_decide_eq_true hf
          exact this
        rw [hfe]
        apply replace2F_pct
        · fin_cases hmem <;> decide
        · fin_cases hmem <;> decide
      · have hfe : forceEsc c = [c] := by simp [forceEsc, hf]
        rw [hfe]
        apply replace2F_cons_ne
        intro hcp
        rw [hcp] at hu
        exact absurd hu (by decide)
    · apply replace2F_pcts
      intro b hb
      exact ⟨(utf8Bytes_bound c b hb).1, fun h47 => hc ((utf8Bytes_bound c b hb).2 h47)⟩

theorem replace2F_chars (cs : List Char) :
    replace2F (joinMap qEnc cs) = joinMap pathEnc cs := by
  induction cs with
  | nil => rfl
  | cons c t ih =>
    simp only [joinMap]
    rw [replace2F_qEnc, ih]

/-- The query encoder is character-wise. -/
theorem encodeQueryRfc3986_chars (s : String) :
    encodeQueryRfc3986 s = String.mk (joinMap qEnc s.data) := by
  unfold encodeQueryRfc3986
  rw [encodeQuery_chars_list]

/-- The path encoder is character-wise: a literal `/` stays `/`, every other
character gets its query encoding. -/
theorem encodePathPreserveSlash_chars (s : String) :
    encodePathPreserveSlash s = String.mk (joinMap pathEnc s.data) := by
  unfold encodePathPreserveSlash
  rw [encodeQuery_chars_list, replace2F_chars]

theorem mem_joinMap {f : α → List β} {b : β} :
    ∀ {l : List α}, b ∈ joinMap f l → ∃ a ∈ l, b ∈ f a := by
  intro l hb
  induction l with
  | nil => cases hb
  | cons a t ih =>
    rcases List.mem_append.1 hb with h | h
    · exact ⟨a, List.mem_cons_self a t, h⟩
    · rcases ih h with ⟨x, hx, hfx⟩
      exact ⟨x, List.mem_cons_of_mem a hx, hfx⟩

theorem wordBE_lt (w : Nat) : ∀ b ∈ wordBE w, b < 256 := by
  intro b hb
  simp only [wordBE, List.mem_cons, List.mem_singleton, List.not_mem_nil, or_false] at hb
  rcases hb with h | h | h | h <;> subst h <;> omega

theorem sha256_bytes_lt (msg : List Nat) : ∀ b ∈ sha256 msg, b < 256 := by
  intro b hb
  rcases mem_joinMap hb with ⟨w, _, hw⟩
  exact wordBE_lt w b hw

theorem hmacSha256_bytes_lt (key msg : List Nat) : ∀ b ∈ hmacSha256 key msg, b < 256 :=
  sha256_bytes_lt _

theorem hexByteLower_mem : ∀ b : Nat, b < 256 →
    ∀ c ∈ hexByteLower b, c ∈ ("0123456789abcdef").data := by decide

theorem toHex_lowercase (bs : List Nat) (h : ∀ b ∈ bs, b < 256) :
    ∀ c ∈ (toHex bs).data, c ∈ ("0123456789abcdef").data := by
  intro c hc
  rcases mem_joinMap hc with ⟨b, hb, hcb⟩
  exact hexByteLower_mem b (h b hb) c hcb

/-- **C1.** For every signing request and clock instant, the Worker's
signature is exactly the lowercase hex of
`HMAC(kSigning, stringToSign)`, where `kSigning` is the 4-step
HMAC-SHA-256 chain `kDate = HMAC("AWS4"+secretKey, datestamp)`,
`kRegion = HMAC(kDate, region)`, `kService = HMAC(kRegion, "s3")`,
`kSigning = HMAC(kService, "aws4_request")` — each step keyed by the
previous step's raw output bytes — and `stringToSign` is the newline-join
of `"AWS4-HMAC-SHA256"`, the amz-date, the credential scope, and the
lowercase-hex SHA-256 of the canonical request; and the presigned URL
embeds that signature.  The final conjunct proves the hex really is
lowercase (every character of the signature is a lowercase hex digit). -/
theorem claim1_signature_derivation (a : SignArgs) (now : DateTime) :
    Worker.signature a now =
      toHex (hmacSha256
        (hmacSha256 (hmacSha256 (hmacSha256
          (hmacSha256 (utf8 ("AWS4" ++ a.secretKey)) (utf8 (Worker.datestamp now)))
          (utf8 a.region)) (utf8 "s3")) (utf8 "aws4_request"))
        (utf8 (joinSep "\n"
          ["AWS4-HMAC-SHA256", toAmzDate now, Worker.credentialScope a now,
           toHex (sha256 (utf8 (Worker.canonicalRequest a now)))]))) ∧
    Worker.presignUrl a now =
      "https://" ++ Worker.host a ++ Worker.canonicalUri a ++ "?" ++
        Worker.canonicalQueryString a now ++ "&X-Amz-Signature=" ++
        Worker.signature a now ∧
    (Worker.signature a now).data.all
      (fun c => ("0123456789abcdef").data.contains c) = true := by
  refine ⟨rfl, rfl, ?_⟩
  rw [List.all_eq_true]
  intro c hc
  exact List.elem_eq_true_of_mem (toHex_lowercase _ (hmacSha256_bytes_lt _ _) c hc)

/-- **C4.** The Cloudflare Worker's `presignUrl` and the Vercel function's
`presignUrl` are the identical algorithm: on every input tuple and the same
clock instant they produce the same URL string. -/
theorem claim4_two_targets_equal (a : SignArgs) (now : DateTime) :
    Worker.presignUrl a now = Api.presignUrl a now := rfl

/-- **C3.** The canonical URI is `/` + bucket + `/` + the percent-encoded
key, where the path encoder acts character-wise, keeping every literal `/`
(`pathEnc '/' = "/"`) and query-encoding every other character; a space in
the key becomes `%20` (not a literal space, not `+`), and the `/` that the
path encoder keeps is `%2F` under the query encoder. -/
theorem claim3_canonical_uri (a : SignArgs) (key : String) :
    Worker.canonicalUri a = "/" ++ a.bucket ++ "/" ++ encodePathPreserveSlash a.key ∧
    encodePathPreserveSlash key = String.mk (joinMap pathEnc key.data) ∧
    pathEnc '/' = ['/'] ∧
    qEnc ' ' = ['%', '2', '0'] ∧
    pathEnc ' ' = ['%', '2', '0'] ∧
    encodePathPreserveSlash "a b.txt" = "a%20b.txt" ∧
    encodeQueryRfc3986 "/" = "%2F" := by
  refine ⟨rfl, encodePathPreserveSlash_chars key, by decide, by decide, by decide,
    by decide, by decide⟩

/-- `true` iff consecutive elements are in strictly increasing
lexicographic (code-point) order. -/
def strictSortedB : List String → Bool
  | [] => true
  | [_] => true
  | x :: y :: t => jsLtS x y && strictSortedB (y :: t)

theorem qp_names_get (a : SignArgs) (now : DateTime) (h : a.method = "GET") :
    (Worker.qp a now).map Prod.fst =
      ["X-Amz-Algorithm", "X-Amz-Credential", "X-Amz-Date", "X-Amz-Expires",
       "X-Amz-SignedHeaders", "response-content-disposition"] := by
  simp [Worker.qp, h]

theorem qp_names_other (a : SignArgs) (now : DateTime) (h : ¬a.method = "GET") :
    (Worker.qp a now).map Prod.fst =
      ["X-Amz-Algorithm", "X-Amz-Credential", "X-Amz-Date", "X-Amz-Expires",
       "X-Amz-SignedHeaders"] := by
  simp [Worker.qp, h]

/-- **C2.** The canonical query string is built by sorting the parameter
names, encoding each name and value with the strict encoder, and joining
`name=value` pairs with `&`; the strict encoder does encode `/` and forces
`! ' ( ) *` to uppercase-hex escapes; and the names appearing in the
produced query string are always in strictly increasing lexicographic
(code-point) order. -/
theorem claim2_canonical_query (a : SignArgs) (now : DateTime) :
    Worker.canonicalQueryString a now =
      joinSep "&"
        ((sortStrings ((Worker.qp a now).map Prod.fst)).map fun k =>
          encodeQueryRfc3986 k ++ "=" ++ encodeQueryRfc3986 (lookupD (Worker.qp a now) k)) ∧
    encodeQueryRfc3986 "/" = "%2F" ∧
    encodeQueryRfc3986 "!'()*" = "%21%27%28%29%2A" ∧
    strictSortedB
      ((sortStrings ((Worker.qp a now).map Prod.fst)).map encodeQueryRfc3986) = true := by
  refine ⟨rfl, by decide, by decide, ?_⟩
  by_cases h : a.method = "GET"
  · rw [qp_names_get a now h]; decide
  · rw [qp_names_other a now h]; decide

theorem stringMk_data : ∀ s : String, String.mk s.data = s
  | ⟨_⟩ => rfl

theorem jsSplitCh_no_sep (sep : Char) (cs : List Char) (h : sep ∉ cs) :
    jsSplitCh sep cs = [cs] := by
  induction cs with
  | nil => rfl
  | cons c t ih =>
    have hc : ¬c = sep := fun hh => h (hh ▸ List.mem_cons_self c t)
    have ht : sep ∉ t := fun hh => h (List.mem_cons_of_mem c hh)
    simp only [jsSplitCh, ih ht]
    rw [if_neg hc]

theorem jsSplitSlash_no_slash (key : String) (h : '/' ∉ key.data) :
    jsSplitSlash key = [key] := by
  unfold jsSplitSlash
  rw [jsSplitCh_no_sep '/' key.data h]
  simp [stringMk_data]

/-- **C6.** The query-parameter set contains `response-content-disposition`
exactly when the method is GET, with value
`attachment; filename="<basename>"`; the basename is the last `/`-delimited
segment of the key (`"download"` when that segment is empty — which is also
the case for the empty key — and the whole key when the key contains no `/`
and is nonempty). -/
theorem claim6_content_disposition :
    (∀ (a : SignArgs) (now : DateTime),
      lookupOpt (Worker.qp a now) "response-content-disposition" =
        if a.method = "GET" then
          some ("attachment; filename=\"" ++ Worker.baseNameOf a.key ++ "\"")
        else none) ∧
    (∀ key : String,
      Worker.baseNameOf key =
        if lastD "" (jsSplitSlash key) = "" then "download"
        else lastD "" (jsSplitSlash key)) ∧
    (∀ key : String, '/' ∉ key.data → key ≠ "" → Worker.baseNameOf key = key) ∧
    (∀ key : String, lastD "" (jsSplitSlash key) = "" →
      Worker.baseNameOf key = "download") := by
  refine ⟨?_, fun _ => rfl, ?_, ?_⟩
  · intro a now
    by_cases h : a.method = "GET" <;> simp [Worker.qp, lookupOpt, h]
  · intro key hslash hne
    unfold Worker.baseNameOf
    rw [jsSplitSlash_no_slash key hslash]
    simp [lastD, hne]
  · intro key h
    unfold Worker.baseNameOf
    rw [h]
    simp

/-- Witness for C6 at concrete keys: a key without `/` is its own basename,
and a key whose last segment is empty falls back to `"download"`. -/
theorem claim6_content_disposition_witness :
    Worker.baseNameOf "abc" = "abc" ∧ Worker.baseNameOf "a/" = "download" := by
  constructor
  · exact claim6_content_disposition.2.2.1 "abc" (by decide) (by decide)
  · exact claim6_content_disposition.2.2.2 "a/" (by decide)

/-- The `400` guard condition of both handlers:
`!key || !['GET','PUT','DELETE'].includes(method)`. -/
def invalidRequest (body : Body) : Bool :=
  falsyOpt body.key || !(["GET", "PUT", "DELETE"].contains (body.method.getD "PUT"))

/-- **C5.** The `/sign` boundary returns 400 (`"Invalid request"`) when the
key is missing/empty or the method is outside {GET, PUT, DELETE}; 500 with a
message naming exactly the absent credentials when any of the four is
missing (the response is an `error`, so no signature and no URL is
produced); and 200 with the presigned URL only when both checks pass.  The
membership conjuncts show the `missing` list names a credential exactly
when that credential is absent.  Both deployment targets behave this way. -/
theorem claim5_boundary :
    (∀ (env : Env) (body : Body) (now : DateTime), invalidRequest body = true →
      Worker.signHandler env body now = (400, .error "Invalid request") ∧
      Api.signHandler env body now = (400, .error "Invalid request")) ∧
    (∀ env : Env,
      ("R2_ACCOUNT_ID" ∈ missingOf env ↔ falsyOpt env.accountId = true) ∧
      ("R2_BUCKET_NAME" ∈ missingOf env ↔ falsyOpt env.bucket = true) ∧
      ("R2_ACCESS_KEY_ID" ∈ missingOf env ↔ falsyOpt env.accessKeyId = true) ∧
      ("R2_SECRET_ACCESS_KEY" ∈ missingOf env ↔ falsyOpt env.secretKey = true)) ∧
    (∀ (env : Env) (body : Body) (now : DateTime), invalidRequest body = false →
      missingOf env ≠ [] →
      Worker.signHandler env body now =
        (500, .error ("Missing R2 configuration: " ++ joinSep ", " (missingOf env))) ∧
      Api.signHandler env body now =
        (500, .error ("Missing R2 configuration: " ++ joinSep ", " (missingOf env)))) ∧
    (∀ (env : Env) (body : Body) (now : DateTime), invalidRequest body = false →
      missingOf env = [] →
      Worker.signHandler env body now =
        (200, .url (Worker.presignUrl (mkArgs env body) now)) ∧
      Api.signHandler env body now =
        (200, .url (Api.presignUrl (mkArgs env body) now))) := by
  refine ⟨?_, ?_, ?_, ?_⟩
  · intro env body now h
    have h' : (falsyOpt body.key ||
        !(["GET", "PUT", "DELETE"].contains (body.method.getD "PUT"))) = true := h
    exact ⟨by unfold Worker.signHandler; rw [if_pos h'],
           by unfold Api.signHandler; rw [if_pos h']⟩
  · intro env
    refine ⟨?_, ?_, ?_, ?_⟩ <;>
      by_cases h1 : falsyOpt env.accountId <;>
      by_cases h2 : falsyOpt env.bucket <;>
      by_cases h3 : falsyOpt env.accessKeyId <;>
      by_cases h4 : falsyOpt env.secretKey <;>
      simp [missingOf, h1, h2, h3, h4]
  · intro env body now h hm
    have h' : (falsyOpt body.key ||
        !(["GET", "PUT", "DELETE"].contains (body.method.getD "PUT"))) = false := h
    have hc : ¬((falsyOpt body.key ||
        !(["GET", "PUT", "DELETE"].contains (body.method.getD "PUT"))) = true) := by
      rw [h']; decide
    have hne : (missingOf env).isEmpty = false := by
      cases hmi : missingOf env with
      | nil => exact absurd hmi hm
      | cons x t => rfl
    have hne' : ¬((missingOf env).isEmpty = true) := by simp [hne]
    exact ⟨by unfold Worker.signHandler; rw [if_neg hc, if_neg hne'],
           by unfold Api.signHandler; rw [if_neg hc, if_neg hne']⟩
  · intro env body now h hm
    have h' : (falsyOpt body.key ||
        !(["GET", "PUT", "DELETE"].contains (body.method.getD "PUT"))) = false := h
    have hc : ¬((falsyOpt body.key ||
        !(["GET", "PUT", "DELETE"].contains (body.method.getD "PUT"))) = true) := by
      rw [h']; decide
    have hemp : (missingOf env).isEmpty = true := by rw [hm]; rfl
    exact ⟨by unfold Worker.signHandler; rw [if_neg hc, if_pos hemp],
           by unfold Api.signHandler; rw [if_neg hc, if_pos hemp]⟩

/-- Witness for C5: a missing-key body yields 400, an environment lacking
only `R2_BUCKET_NAME` yields 500 naming it, and a fully configured
environment with a valid body yields 200 with the URL. -/
theorem claim5_boundary_witness :
    Worker.signHandler ⟨some "acct", some "bkt", some "AK", some "SK", none⟩
        ⟨none, none, none⟩ ⟨2026, 1, 5, 3, 4, 5, 0⟩ =
      (400, .error "Invalid request") ∧
    Worker.signHandler ⟨some "acct", none, some "AK", some "SK", none⟩
        ⟨some "k.txt", none, none⟩ ⟨2026, 1, 5, 3, 4, 5, 0⟩ =
      (500, .error ("Missing R2 configuration: " ++
        joinSep ", " (missingOf ⟨some "acct", none, some "AK", some "SK", none⟩))) ∧
    Worker.signHandler ⟨some "acct", some "bkt", some "AK", some "SK", none⟩
        ⟨some "k.txt", none, none⟩ ⟨2026, 1, 5, 3, 4, 5, 0⟩ =
      (200, .url (Worker.presignUrl
        (mkArgs ⟨some "acct", some "bkt", some "AK", some "SK", none⟩
          ⟨some "k.txt", none, none⟩) ⟨2026, 1, 5, 3, 4, 5, 0⟩)) := by
  refine ⟨?_, ?_, ?_⟩
  · exact (claim5_boundary.1 _ _ _ (by decide)).1
  · exact (claim5_boundary.2.2.1 _ _ _ (by decide) (by decide)).1
  · exact (claim5_boundary.2.2.2 _ _ _ (by decide) (by decide)).1

/-- `true` iff the response body is a URL. -/
def RespBody.isUrl : RespBody → Bool
  | .url _ => true
  | .error _ => false

/-- **C8.** The secret key is never part of any output except through the
HMAC signing-key derivation: the `/health` body is unchanged under any
change of the secret (and of the access key id), and shows at most the
masked (6-character-prefix) account id; the presigned URL depends on the
secret key only through `getSignatureKey` (equal derived signing keys give
byte-identical URLs); and every error response of the `/sign` boundary is
unchanged under any change of the (present, nonempty) secret value. -/
theorem claim8_secret_confinement :
    (∀ (env : Env) (now : DateTime) (k1 k2 aki1 aki2 : Option String),
      Worker.healthBody { env with secretKey := k1, accessKeyId := aki1 } now =
        Worker.healthBody { env with secretKey := k2, accessKeyId := aki2 } now) ∧
    (∀ (env : Env) (now : DateTime),
      (Worker.healthBody env now).accountId =
        if falsyOpt env.accountId then none
        else some ((env.accountId.getD "").take 6 ++ "…")) ∧
    (∀ (method accountId bucket key region accessKeyId k1 k2 : String) (expires : JsNum)
        (now : DateTime),
      Worker.getSignatureKey k1 (Worker.datestamp now) region "s3" =
        Worker.getSignatureKey k2 (Worker.datestamp now) region "s3" →
      Worker.presignUrl ⟨method, accountId, bucket, key, region, accessKeyId, k1, expires⟩ now =
        Worker.presignUrl ⟨method, accountId, bucket, key, region, accessKeyId, k2, expires⟩ now) ∧
    (∀ (acct bkt akid reg : Option String) (body : Body) (now : DateTime)
        (s1 s2 : String) (st : Nat) (m : String), s1 ≠ "" → s2 ≠ "" →
      Worker.signHandler ⟨acct, bkt, akid, some s1, reg⟩ body now = (st, .error m) →
      Worker.signHandler ⟨acct, bkt, akid, some s2, reg⟩ body now = (st, .error m)) := by
  refine ⟨fun _ _ _ _ _ _ => rfl, fun _ _ => rfl, ?_, ?_⟩
  · intro method accountId bucket key region accessKeyId k1 k2 expires now h
    have hsig :
        Worker.signature ⟨method, accountId, bucket, key, region, accessKeyId, k1, expires⟩ now =
        Worker.signature ⟨method, accountId, bucket, key, region, accessKeyId, k2, expires⟩ now := by
      show Worker.hmacHexBuf (Worker.getSignatureKey k1 (Worker.datestamp now) region "s3")
          (Worker.stringToSign
            ⟨method, accountId, bucket, key, region, accessKeyId, k1, expires⟩ now) =
        Worker.hmacHexBuf (Worker.getSignatureKey k2 (Worker.datestamp now) region "s3")
          (Worker.stringToSign
            ⟨method, accountId, bucket, key, region, accessKeyId, k2, expires⟩ now)
      rw [h]
      rfl
    unfold Worker.presignUrl
    rw [hsig]
    rfl
  · intro acct bkt akid reg body now s1 s2 st m hs1 hs2 hres
    have hmiss : missingOf ⟨acct, bkt, akid, some s2, reg⟩ =
        missingOf ⟨acct, bkt, akid, some s1, reg⟩ := by
      show (if falsyOpt acct then ["R2_ACCOUNT_ID"] else []) ++
          (if falsyOpt bkt then ["R2_BUCKET_NAME"] else []) ++
          (if falsyOpt akid then ["R2_ACCESS_KEY_ID"] else []) ++
          (if falsyOpt (some s2) then ["R2_SECRET_ACCESS_KEY"] else []) =
        (if falsyOpt acct then ["R2_ACCOUNT_ID"] else []) ++
          (if falsyOpt bkt then ["R2_BUCKET_NAME"] else []) ++
          (if falsyOpt akid then ["R2_ACCESS_KEY_ID"] else []) ++
          (if falsyOpt (some s1) then ["R2_SECRET_ACCESS_KEY"] else [])
      have hf1 : falsyOpt (some s1) = false := by simp [falsyOpt, hs1]
      have hf2 : falsyOpt (some s2) = false := by simp [falsyOpt, hs2]
      rw [hf1, hf2]
    unfold Worker.signHandler at hres ⊢
    by_cases hinv : (falsyOpt body.key ||
        !(["GET", "PUT", "DELETE"].contains (body.method.getD "PUT"))) = true
    · rw [if_pos hinv] at hres ⊢
      exact hres
    · rw [if_neg hinv] at hres ⊢
      by_cases hm : (missingOf ⟨acct, bkt, akid, some s1, reg⟩).isEmpty = true
      · rw [if_pos hm] at hres
        simp at hres
      · rw [if_neg hm] at hres
        rw [if_neg (by rw [hmiss]; exact hm), hmiss]
        exact hres

/-- Witness for C8: equal signing keys give equal URLs at a concrete input,
and a concrete configuration error is unchanged when the secret value
changes. -/
theorem claim8_secret_confinement_witness :
    Worker.presignUrl ⟨"PUT", "acct", "bkt", "k", "auto", "AK", "SK", ⟨300, 0⟩⟩
        ⟨2026, 1, 5, 3, 4, 5, 0⟩ =
      Worker.presignUrl ⟨"PUT", "acct", "bkt", "k", "auto", "AK", "SK", ⟨300, 0⟩⟩
        ⟨2026, 1, 5, 3, 4, 5, 0⟩ ∧
    Worker.signHandler ⟨none, some "bkt", some "AK", some "S2", none⟩
        ⟨some "k.txt", none, none⟩ ⟨2026, 1, 5, 3, 4, 5, 0⟩ =
      (500, .error ("Missing R2 configuration: " ++ joinSep ", "
        (missingOf ⟨none, some "bkt", some "AK", some "S1", none⟩))) := by
  constructor
  · exact claim8_secret_confinement.2.2.1 "PUT" "acct" "bkt" "k" "auto" "AK" "SK" "SK"
      ⟨300, 0⟩ ⟨2026, 1, 5, 3, 4, 5, 0⟩ rfl
  · exact claim8_secret_confinement.2.2.2 none (some "bkt") (some "AK") none
      ⟨some "k.txt", none, none⟩ ⟨2026, 1, 5, 3, 4, 5, 0⟩ "S1" "S2" 500 _
      (by decide) (by decide) (by decide)

/-- **C9, counterexample.** The claim says exception contents are never
included in the response body; but the catch clauses return
`err?.message || 'Failed to sign'`, so a thrown error's message *is* the
response body: at the concrete exception with message `"boom"`, the
response body is `error "boom"`. -/
theorem claim9_counterexample :
    ¬(∀ (e : JsErr) (m : String), e.message = some m →
        (Worker.catchClause e).2 ≠ RespBody.error m) :=
  fun h => h ⟨some "boom"⟩ "boom" rfl (by decide)

/-- **C9, amended.** When an unexpected exception occurs during signing,
both catch clauses return status 500 whose body is exactly the short
message `err?.message || 'Failed to sign'` — the exception's own message
when present and nonempty, the fixed string `"Failed to sign"` otherwise —
and never any (partial) URL; nothing else about the exception reaches the
response (the exception object itself goes only to `console.error`). -/
theorem claim9_amended (e : JsErr) :
    Worker.catchClause e = (500, .error (errShortMessage e)) ∧
    Api.catchClause e = (500, .error (errShortMessage e)) ∧
    (Worker.catchClause e).2.isUrl = false ∧
    (Api.catchClause e).2.isUrl = false ∧
    (∀ m : String, e.message = some m → m ≠ "" → errShortMessage e = m) ∧
    (e.message = none → errShortMessage e = "Failed to sign") := by
  refine ⟨rfl, rfl, rfl, rfl, ?_, ?_⟩
  · intro m hm hne
    unfold errShortMessage
    rw [hm]
    simp [hne]
  · intro hm
    unfold errShortMessage
    rw [hm]

/-- Witness for the amended C9 at concrete exceptions. -/
theorem claim9_amended_witness :
    errShortMessage ⟨some "boom"⟩ = "boom" ∧
    errShortMessage ⟨none⟩ = "Failed to sign" :=
  ⟨(claim9_amended ⟨some "boom"⟩).2.2.2.2.1 "boom" rfl (by decide),
   (claim9_amended ⟨none⟩).2.2.2.2.2 rfl⟩

/-- **C10.** The boundary coerces `expires` with `Number(expires) || 300`:
an omitted field, the number 0 (with any decimal exponent), a non-numeric
string, and `null` all become 300; every other numeric value — including
negative and fractional ones — is kept unchanged and embedded verbatim as
the decimal `X-Amz-Expires` string (the strict query encoder leaves `-`,
`.` and digits untouched), with no validation that it is a positive
integer. -/
theorem claim10_expires_coercion :
    coerceExpires none = ⟨300, 0⟩ ∧
    (∀ e : Nat, coerceExpires (some (.num ⟨0, e⟩)) = ⟨300, 0⟩) ∧
    coerceExpires (some (.str "abc")) = ⟨300, 0⟩ ∧
    coerceExpires (some .null) = ⟨300, 0⟩ ∧
    (∀ q : JsNum, coerceExpires (some (.num q)) = if q.m = 0 then ⟨300, 0⟩ else q) ∧
    (∀ (env : Env) (body : Body), (mkArgs env body).expires = coerceExpires body.expires) ∧
    (∀ (a : SignArgs) (now : DateTime),
      lookupD (Worker.qp a now) "X-Amz-Expires" = jsNumToString a.expires) ∧
    jsNumToString ⟨-5, 0⟩ = "-5" ∧ jsNumToString ⟨25, 1⟩ = "2.5" ∧
    jsNumToString ⟨300, 0⟩ = "300" ∧
    encodeQueryRfc3986 (jsNumToString ⟨-5, 0⟩) = "-5" ∧
    encodeQueryRfc3986 (jsNumToString ⟨25, 1⟩) = "2.5" := by
  refine ⟨by decide, ?_, by decide, by decide, ?_, fun _ _ => rfl, ?_, by decide, by decide,
    by decide, by decide, by decide⟩
  · intro e
    simp [coerceExpires, jsNumber]
  · intro q
    simp [coerceExpires, jsNumber]
  · intro a now
    rfl
